import Mathlib

/-!
Verification development for the open-interest screener / auto-trading bot
(sources: main.py and bingx_client.py).  The embedding models Python numbers
as rationals, Python strings as `String` or `List Char`, the user store as an
association list, exchange calls as results scripted by an environment, and a
raised exception as an `Except.error` value.
-/

namespace Screener

/-! ### Python string primitives -/

/-- Fuel-indexed worker for `pyReplace`; the fuel dominates the length of the
scanned suffix, so it never runs out when started at the input length. -/
def pyReplaceAux (pat rep : List Char) : ℕ → List Char → List Char
  | _, [] => []
  | 0, s => s
  | fuel + 1, c :: rest =>
    if pat ≠ [] ∧ List.take pat.length (c :: rest) = pat then
      rep ++ pyReplaceAux pat rep fuel (List.drop pat.length (c :: rest))
    else
      c :: pyReplaceAux pat rep fuel rest

/-- Model of Python `str.replace(pat, rep)` for a non-empty pattern: scan left
to right and replace each non-overlapping occurrence of `pat` by `rep`; the
replacement text is never rescanned, exactly as in CPython.  (For an empty
pattern the model is the identity; every call site in the sources uses a
non-empty pattern.) -/
def pyReplace (pat rep s : List Char) : List Char :=
  pyReplaceAux pat rep s.length s

/-- Bool test: `pat` occurs at the start of `s`. -/
def startsWith (pat s : List Char) : Bool :=
  List.take pat.length s == pat

/-- Bool test: `pat` occurs somewhere inside `s` (model of the Python
membership test `pat in s`). -/
def containsSub (pat : List Char) : List Char → Bool
  | [] => startsWith pat []
  | c :: rest => startsWith pat (c :: rest) || containsSub pat rest

/-! String constants of the sources (bound as definitions so that each string
literal appears after an assignment token). -/

def strUSDT : String := "USDT"
def strDashUSDT : String := "-USDT"
def strForbidden : String := "Forbidden"
def strBlocked : String := "blocked by the user"
def strTPM : String := "TAKE_PROFIT_MARKET"
def sLong : String := "long"
def sShort : String := "short"

/-- Embedding of `BingxClient._to_bingx_symbol` (bingx_client.py lines 19-23):
remove every dash, remove every slash, then turn every occurrence of USDT
into -USDT. -/
def _to_bingx_symbol (symbol : String) : String :=
  String.mk (pyReplace strUSDT.toList strDashUSDT.toList
    (pyReplace ['/'] [] (pyReplace ['-'] [] symbol.toList)))

/-- Embedding of the inline transform `symbol.replace('USDT', '-USDT')` at
main.py line 244 (used to match position records). -/
def toDashSymbol (symbol : String) : String :=
  String.mk (pyReplace strUSDT.toList strDashUSDT.toList symbol.toList)

/-! ### Python rounding primitives -/

/-- Model of Python `round(x)` on a rational: round half to even. -/
def bankersRound (q : ℚ) : ℤ :=
  let f : ℤ := Rat.floor q
  let r : ℚ := q - f
  if r < 1 / 2 then f
  else if 1 / 2 < r then f + 1
  else if f % 2 = 0 then f else f + 1

/-- Model of Python `round(x, n)` for a non-negative digit count `n`. -/
def pyRound (n : ℕ) (q : ℚ) : ℚ :=
  (bankersRound (q * (10 : ℚ) ^ n) : ℚ) / (10 : ℚ) ^ n

/-- Model of `BingxClient.count_decimal_places` (bingx_client.py lines
188-192): the number of decimal digits of the shortest decimal rendering of
the number, i.e. the least `d` with `q * 10 ^ d` integral (CPython float
renderings never need more than 17 fractional digits; 20 is a safe cap). -/
def count_decimal_places (q : ℚ) : ℕ :=
  ((List.range 20).find? (fun d => (q * (10 : ℚ) ^ d).den == 1)).getD 20

/-- The precision-keyed quantity-rounding rule of `set_multiple_tp`
(bingx_client.py line 227):
`0 if precision >= 3 else 2 if precision == 2 else 3 if precision == 1 else 4`. -/
def qty_round_of (precision : ℕ) : ℕ :=
  if precision ≥ 3 then 0
  else if precision == 2 then 2
  else if precision == 1 then 3
  else 4

/-- Per-level quantity computed by `set_multiple_tp` (bingx_client.py line
228): `round(qty / len(tp_levels), qty_round)` with the precision taken from
the mark price. -/
def set_multiple_tp_qty (qty mark_price : ℚ) (tp_levels : List ℚ) : ℚ :=
  pyRound (qty_round_of (count_decimal_places mark_price))
    (qty / (tp_levels.length : ℚ))

/-- The (stopPrice, quantity) pairs of the conditional orders submitted by
`set_multiple_tp` (bingx_client.py lines 230-249): one order per level, each
with the same split quantity. -/
def set_multiple_tp_orders (qty mark_price : ℚ) (tp_levels : List ℚ) :
    List (ℚ × ℚ) :=
  tp_levels.map (fun tp => (tp, set_multiple_tp_qty qty mark_price tp_levels))

/-! ### User store and signal evaluation (main.py) -/

/-- Per-subscriber configuration record, with the fields and defaults created
by `start` (main.py lines 365-377).  The Python `price_oi_ratio` key is named
`price_oi_coeff` here. -/
structure UserData where
  trading_enabled : Bool
  testnet : Bool
  api_key : String
  api_secret : String
  leverage : Int
  margin_usdt : ℚ
  signals_4h_enabled : Bool
  signals_24h_enabled : Bool
  price_oi_coeff : ℚ
  stop_loss_pct : ℚ
  take_profit_pcts : List ℚ
  trailing_enabled : Bool
  trailing_activation_pct : ℚ
  trailing_rate_pct : ℚ
  volume_filter_enabled : Bool
  volume_multiplier : ℚ
  blacklist : List String
  last_signal_time : List (String × Int)
deriving DecidableEq, Repr

/-- The persisted user store (users.json): an insertion-ordered mapping from
chat id to configuration, modelled as an association list. -/
abbrev Users := List (String × UserData)

/-- Lookup in an association list keyed by strings (Python `dict.get`). -/
def lookupKey {β : Type} (l : List (String × β)) (k : String) : Option β :=
  (l.find? (fun p => p.1 == k)).map Prod.snd

/-- Python `d[k] = v`: replace the first binding of `k`, or append a new one. -/
def setKey {β : Type} : List (String × β) → String → β → List (String × β)
  | [], k, v => [(k, v)]
  | p :: rest, k, v =>
    if p.1 == k then (k, v) :: rest else p :: setKey rest k v

/-- Python `del d[k]` (key removal). -/
def eraseKey {β : Type} (l : List (String × β)) (k : String) :
    List (String × β) :=
  l.filter (fun p => p.1 != k)

/-- Thresholds and constants of main.py lines 53-59. -/
def OI_4H_THRESHOLD : ℚ := 10
def OI_24H_THRESHOLD : ℚ := 16
def MIN_OI_USDT : ℚ := 500000
def SIGNAL_COOLDOWN_HOURS : Int := 3

/-- Growth formula `pct` (main.py lines 65-66). -/
def pct (now past : ℚ) : ℚ :=
  if past = 0 then 0 else (now - past) / past * 100

/-- The per-symbol growth metrics computed once per scan (main.py lines
124-142 and the signal_data dictionary). -/
structure ScanMetrics where
  oi_growth_4h : ℚ
  oi_growth_24h : ℚ
  price_growth_4h : ℚ
  price_growth_24h : ℚ
  price_now : ℚ
  oi_now : ℚ
deriving DecidableEq, Repr

/-- The per-user signal decision of main.py lines 150-157: the disjunction of
the 4h and the 24h condition, each gated by its enable flag and by the
user-scoped price/OI coefficient. -/
def signal_fires (m : ScanMetrics) (ud : UserData) : Bool :=
  let signal_4h := decide (OI_4H_THRESHOLD ≤ m.oi_growth_4h)
      && decide (m.price_growth_4h ≤ m.oi_growth_4h * ud.price_oi_coeff)
      && ud.signals_4h_enabled
  let signal_24h := decide (OI_24H_THRESHOLD ≤ m.oi_growth_24h)
      && decide (m.price_growth_24h ≤ m.oi_growth_24h * ud.price_oi_coeff)
      && ud.signals_24h_enabled
  signal_4h || signal_24h

/-- Observable actions of one scan of one symbol: a Telegram send attempt, a
user-record deletion performed by `send_alert`, a durable `save_users` write
(carrying the written store), and the submission of an execution task. -/
inductive Ev where
  | alert (chat_id : String)
  | removeUser (chat_id : String)
  | save (store : Users)
  | submit (chat_id : String) (symbol : String)
deriving DecidableEq, Repr

/-- Embedding of `send_alert` (main.py lines 68-84).  `err` is the outcome of
`bot.send_message`: `none` on success, `some text` when it raised with that
message.  When the message signals that the user blocked the bot, the handler
reloads the persisted store, deletes the user and saves; every other failure
is only logged.  The function itself never raises. -/
def send_alert (err : Option (List Char)) (chat_id : String) (disk : Users) :
    Users × List Ev :=
  match err with
  | none => (disk, [Ev.alert chat_id])
  | some e =>
    if containsSub strForbidden.toList e && containsSub strBlocked.toList e then
      if (lookupKey disk chat_id).isSome then
        (eraseKey disk chat_id, [Ev.alert chat_id, Ev.removeUser chat_id])
      else (disk, [Ev.alert chat_id])
    else (disk, [Ev.alert chat_id])

/-- Record the signal time for `symbol` (main.py lines 184-185). -/
def updLast (ud : UserData) (symbol : String) (now : Int) : UserData :=
  { ud with last_signal_time := setKey ud.last_signal_time symbol now }

/-- Loop body of main.py lines 148-192 for a single subscriber.  `telegram`
scripts the outcome of each Telegram send; `now` is the current UTC time in
seconds; `disk` is the persisted store, `mem` the in-memory dict loaded at
line 147 (the iterated snapshot aliases `mem`).  Returns the new persisted
store, the new in-memory store, the emitted events, and whether the loop
continues (`false` models the `return None` at line 158). -/
def process_user (telegram : String → Option (List Char)) (now : Int)
    (symbol : String) (m : ScanMetrics) (disk mem : Users)
    (chat_id : String) (ud : UserData) : Users × Users × List Ev × Bool :=
  if !signal_fires m ud then (disk, mem, [], false)
  else
    let sa := send_alert (telegram chat_id) chat_id disk
    if !ud.trading_enabled then (sa.1, mem, sa.2, true)
    else
      let cooled :=
        match lookupKey ud.last_signal_time symbol with
        | some t => decide (now - t < SIGNAL_COOLDOWN_HOURS * 3600)
        | none => false
      if cooled then (sa.1, mem, sa.2, true)
      else
        let ud1 := updLast ud symbol now
        let mem1 := setKey mem chat_id ud1
        -- line 186: save_users(users) writes the in-memory dict to disk
        let evs := sa.2 ++ [Ev.save mem1]
        if symbol ∈ ud.blacklist then (mem1, mem1, evs, true)
        else (mem1, mem1, evs ++ [Ev.submit chat_id symbol], true)

/-- The subscriber loop of main.py lines 148-192 over the snapshot taken by
`list(users.items())`. -/
def users_loop (telegram : String → Option (List Char)) (now : Int)
    (symbol : String) (m : ScanMetrics) :
    Users → Users → List (String × UserData) → Users × Users × List Ev
  | disk, mem, [] => (disk, mem, [])
  | disk, mem, (cid, ud) :: rest =>
    let r := process_user telegram now symbol m disk mem cid ud
    if r.2.2.2 then
      let r2 := users_loop telegram now symbol m r.1 r.2.1 rest
      (r2.1, r2.2.1, r.2.2.1 ++ r2.2.2)
    else (r.1, r.2.1, r.2.2.1)

/-- Raw market data fetched for one symbol: the two open-interest series
(sumOpenInterestValue column) and the two kline series (close column). -/
structure MarketData where
  oi4h : List ℚ
  oi24h : List ℚ
  kl4h : List ℚ
  kl24h : List ℚ
deriving DecidableEq, Repr

/-- Embedding of `check_symbol` (main.py lines 116-195).  An IndexError on an
empty series is caught by the outer handler at line 194, which only logs, so
those paths return the store unchanged with no events, exactly like the
explicit early returns at lines 120-122 and 127-129. -/
def check_symbol (telegram : String → Option (List Char)) (now : Int)
    (symbol : String) (md : MarketData) (disk : Users) : Users × List Ev :=
  if md.oi24h.length < 288 then (disk, [])
  else
    match md.oi4h.getLast?, md.oi4h.head?, md.oi24h.head? with
    | some oi_now, some oi_4h_ago, some oi_24h_ago =>
      if oi_now < MIN_OI_USDT then (disk, [])
      else
        match md.kl4h.getLast?, md.kl4h.head?, md.kl24h.head? with
        | some price_now, some price_4h_ago, some price_24h_ago =>
          let m : ScanMetrics :=
            { oi_growth_4h := pct oi_now oi_4h_ago
              oi_growth_24h := pct oi_now oi_24h_ago
              price_growth_4h := pct price_now price_4h_ago
              price_growth_24h := pct price_now price_24h_ago
              price_now := price_now
              oi_now := oi_now }
          let r := users_loop telegram now symbol m disk disk disk
          (r.1, r.2.2)
        | _, _, _ => (disk, [])
    | _, _, _ => (disk, [])

/-! ### The order-execution sequencer (`open_trade_for_user`, main.py 219-319)

Every exchange round trip is scripted by an `Env` value: `Except.ok` is the
decoded response (reduced to the fields the sequencer inspects), and
`Except.error` models the call raising an exception.  Each field corresponds
to one call site and is consulted only if that call is reached.  Telegram
sends inside the sequencer are omitted from the trace: `send_alert` never
raises and its store side effect is analysed separately with `check_symbol`.
`get_mark_price` is absorbed into the take-profit step because it swallows
its own errors and returns a value in every case. -/

/-- Exceptions that can reach the handler at main.py line 313: an exchange
transport or HTTP error, the explicit `ValueError` for a rejected entry
(line 275), and the explicit `ValueError` for an unverified position
(line 282). -/
inductive Exc where
  | transport
  | orderFailed
  | positionNotOpened
deriving DecidableEq, Repr

/-- One exchange call as it appears in the execution trace.  `both` is the
`pos_side_BOTH` / `both` argument (true = one-way convention), matching the
position-mode convention of the call. -/
inductive Call where
  | setLeverage (one_way : Bool)
  | volumeCheck
  | marketOrder (side : String) (qty : ℚ) (both : Bool) (reduceOnly : Bool)
      (stop : Option ℚ)
  | getPositions
  | setTp (qty : ℚ) (both : Bool)
  | getOpenOrders
  | cancelOrders
  | setTrailing
deriving DecidableEq, Repr

/-- Terminal result of one execution attempt. -/
inductive Outcome where
  | noUser
  | blacklisted
  | volumeBlocked
  | symbolMissing
  | opened
  | tpFailedClosed
  | tpMismatchClosed
  | handled (e : Exc)
  | nameError
deriving DecidableEq, Repr

/-- Scripted outcomes of the exchange calls of one attempt, in program order.
Response values are reduced to what the code inspects: the response code for
orders and leverage, the (symbol, positionAmt) pairs for positions, the order
types for open orders. -/
structure Env where
  leverage1 : Except Exc Int
  leverage2 : Except Exc Int
  volume_ok : Except Exc Bool
  entry1 : Except Exc Int
  entry2 : Except Exc Int
  positions : Except Exc (List (String × ℚ))
  verify_close : Except Exc Int
  tp1 : List Int
  tp2 : List Int
  tp_fail_close : Except Exc Int
  open_orders : Except Exc (List String)
  cancel_all : Except Exc Int
  mismatch_close : Except Exc Int
  trailing : Except Exc Int
  handler_close : Except Exc Int

/-- The handler of main.py lines 313-319.  The alert f-string at line 315
interpolates the local `resp`; when the exception occurred before line 266
that local is unbound, so evaluating the f-string raises NameError and the
attempt dies before the reduce-only close at line 317 is reached.  When
`resp` is bound, the close is attempted inside a bare try/except whose own
failure is swallowed, so both a response and a raise from the close end the
handler; its scripted result is therefore never inspected. -/
def run_handler (resp : Option Int) (qty : ℚ) (owm : Bool) (e : Exc)
    (tr : List Call) : Outcome × List Call :=
  match resp with
  | none => (Outcome.nameError, tr)
  | some _ =>
    (Outcome.handled e, tr ++ [Call.marketOrder sShort qty owm true none])

/-- Trailing-stop step, main.py lines 304-311: only when enabled; a non-zero
response code is merely logged (the position stays open). -/
def run_trailing (env : Env) (ud : UserData) (qty : ℚ) (owm : Bool)
    (resp : Int) (tr : List Call) : Outcome × List Call :=
  if ud.trailing_enabled then
    match env.trailing with
    | .error e => run_handler (some resp) qty owm e (tr ++ [Call.setTrailing])
    | .ok _ => (Outcome.opened, tr ++ [Call.setTrailing])
  else (Outcome.opened, tr)

/-- Take-profit verification step, main.py lines 296-301: count the live
TAKE_PROFIT_MARKET orders; on a mismatch with the configured level count,
cancel all open orders, close the position reduce-only and stop. -/
def run_verify_tps (env : Env) (ud : UserData) (qty : ℚ) (owm : Bool)
    (resp : Int) (tr : List Call) : Outcome × List Call :=
  match env.open_orders with
  | .error e => run_handler (some resp) qty owm e (tr ++ [Call.getOpenOrders])
  | .ok orders =>
    let tr1 := tr ++ [Call.getOpenOrders]
    -- tp_prices (line 251) maps take_profit_pcts, so the lengths agree
    if (orders.filter (fun o => o == strTPM)).length ≠
        ud.take_profit_pcts.length then
      match env.cancel_all with
      | .error e => run_handler (some resp) qty owm e (tr1 ++ [Call.cancelOrders])
      | .ok _ =>
        let tr2 := tr1 ++ [Call.cancelOrders,
          Call.marketOrder sShort qty owm true none]
        match env.mismatch_close with
        | .error e => run_handler (some resp) qty owm e tr2
        | .ok _ => (Outcome.tpMismatchClosed, tr2)
    else run_trailing env ud qty owm resp tr1

/-- Take-profit step, main.py lines 286-293: submit the split, retry the
whole split once at 99 percent of the quantity when any level failed, and
close the position when the retry also has a failing level.
`set_multiple_tp` captures per-level errors itself and never raises. -/
def run_tps (env : Env) (ud : UserData) (qty : ℚ) (owm : Bool) (resp : Int)
    (tr : List Call) : Outcome × List Call :=
  let tr1 := tr ++ [Call.setTp qty owm]
  if env.tp1.any (fun c => c != 0) then
    let tr2 := tr1 ++ [Call.setTp (qty * (99 / 100)) owm]
    if env.tp2.any (fun c => c != 0) then
      let tr3 := tr2 ++ [Call.marketOrder sShort qty owm true none]
      match env.tp_fail_close with
      | .error e => run_handler (some resp) qty owm e tr3
      | .ok _ => (Outcome.tpFailedClosed, tr3)
    else run_verify_tps env ud qty owm resp tr2
  else run_verify_tps env ud qty owm resp tr1

/-- Position verification step, main.py lines 277-284: query positions, find
the record for the formatted symbol; when it is absent or its absolute size
is below 90 percent of the requested quantity, submit a reduce-only close
(whose response code is not checked) and raise, which lands in the handler
with `resp` bound.  The success alert at line 284 never raises. -/
def run_verify (env : Env) (ud : UserData) (s : String) (qty : ℚ)
    (owm : Bool) (resp : Int) (tr : List Call) : Outcome × List Call :=
  match env.positions with
  | .error e => run_handler (some resp) qty owm e (tr ++ [Call.getPositions])
  | .ok poss =>
    let tr1 := tr ++ [Call.getPositions]
    let bad :=
      match poss.find? (fun p => p.1 == s) with
      | none => true
      | some p => decide (|p.2| < qty * (9 / 10))
    if bad then
      let tr2 := tr1 ++ [Call.marketOrder sShort qty owm true none]
      match env.verify_close with
      | .error e => run_handler (some resp) qty owm e tr2
      | .ok _ => run_handler (some resp) qty owm Exc.positionNotOpened tr2
    else run_tps env ud qty owm resp tr1

/-- Entry step, main.py lines 263-275: `one_way_mode` starts false; on code
109400 it flips to true and the order is retried once (the retry response is
not re-checked); code 109425 aborts silently; any other non-zero code raises
`ValueError`, reaching the handler with `resp` bound. -/
def run_entry (env : Env) (ud : UserData) (s : String) (qty stop_price : ℚ)
    (tr : List Call) : Outcome × List Call :=
  match env.entry1 with
  | .error e =>
    run_handler none qty false e
      (tr ++ [Call.marketOrder sLong qty false false (some stop_price)])
  | .ok c1 =>
    let tr1 := tr ++ [Call.marketOrder sLong qty false false (some stop_price)]
    if c1 == 109400 then
      match env.entry2 with
      | .error e =>
        run_handler (some c1) qty true e
          (tr1 ++ [Call.marketOrder sLong qty true false (some stop_price)])
      | .ok c2 =>
        run_verify env ud s qty true c2
          (tr1 ++ [Call.marketOrder sLong qty true false (some stop_price)])
    else if c1 == 109425 then (Outcome.symbolMissing, tr1)
    else if c1 != 0 then run_handler (some c1) qty false Exc.orderFailed tr1
    else run_verify env ud s qty false c1 tr1

/-- The requested entry quantity of main.py lines 245 and 255:
`(margin * leverage) / price`, rounded to 0 or 1 decimals by price
precision. -/
def qtyOf (ud : UserData) (price_now : ℚ) : ℚ :=
  pyRound (if count_decimal_places price_now < 2 then 0 else 1)
    ((ud.margin_usdt * (ud.leverage : ℚ)) / price_now)

/-- Embedding of `open_trade_for_user` (main.py lines 219-319).  `ud?` is the
global-store lookup of line 221.  The leverage call (lines 239-241) is
retried once in one-way mode on any non-zero code, and the result of the
retry is not checked.  Lines 244-255 are pure; the tp price list is only
needed through its length, which equals the configured level count. -/
def open_trade_for_user (env : Env) (ud? : Option UserData) (symbol : String)
    (price_now : ℚ) : Outcome × List Call :=
  match ud? with
  | none => (Outcome.noUser, [])
  | some user_data =>
    if symbol ∈ user_data.blacklist then (Outcome.blacklisted, [])
    else
      match env.leverage1 with
      | .error e => run_handler none 0 false e [Call.setLeverage false]
      | .ok c1 =>
        let levTr := if c1 != 0 then [Call.setLeverage false, Call.setLeverage true]
          else [Call.setLeverage false]
        let levErr : Option Exc :=
          if c1 != 0 then
            match env.leverage2 with
            | .error e => some e
            | .ok _ => none
          else none
        match levErr with
        | some e => run_handler none 0 false e levTr
        | none =>
          let s := toDashSymbol symbol
          let precision := count_decimal_places price_now
          let stop_price :=
            pyRound precision (price_now * (1 - user_data.stop_loss_pct / 100))
          let qty := qtyOf user_data price_now
          if user_data.volume_filter_enabled then
            match env.volume_ok with
            | .error e => run_handler none qty false e (levTr ++ [Call.volumeCheck])
            | .ok true =>
              run_entry env user_data s qty stop_price (levTr ++ [Call.volumeCheck])
            | .ok false => (Outcome.volumeBlocked, levTr ++ [Call.volumeCheck])
          else run_entry env user_data s qty stop_price levTr

/-- The position-mode convention in force after the entry step: one-way
exactly when the first entry response carried code 109400. -/
def entryOwm (env : Env) : Bool :=
  match env.entry1 with
  | .ok c => c == 109400
  | .error _ => false

/-- Property of every call recorded after the leverage phase: it is not a
leverage call, and if it is a reduce-only close (side short) or a take-profit
submission then it carries the convention `owm`. -/
def postCall (owm : Bool) (c : Call) : Prop :=
  (∀ b, c ≠ Call.setLeverage b)
    ∧ (∀ q b ro stp, c = Call.marketOrder sShort q b ro stp → b = owm)
    ∧ (∀ q b, c = Call.setTp q b → b = owm)

/-- The deletion trigger of `send_alert` (main.py line 77): the Telegram
error text mentions both Forbidden and blocked by the user. -/
def blockedErr (err : Option (List Char)) : Bool :=
  match err with
  | none => false
  | some e => containsSub strForbidden.toList e && containsSub strBlocked.toList e

/-- `b` agrees with `a` on every configuration field except possibly the
last-signal timestamp map. -/
def sameExceptLast (a b : UserData) : Prop :=
  b = { a with last_signal_time := b.last_signal_time }

/-- Every record of `store` is present in `u` with at most its last-signal
timestamp map changed. -/
def storeRel (store u : Users) : Prop :=
  ∀ cid ud0, lookupKey store cid = some ud0 →
    ∃ ud1, lookupKey u cid = some ud1 ∧ sameExceptLast ud0 ud1

/-! ### Concrete scenario data used by counterexamples and witnesses -/

def sym0 : String := "BTCUSDT"
def symDash0 : String := "BTC-USDT"
def chat1 : String := "1"
def chat2 : String := "2"
def keyK : String := "k"
def errBlockedMsg : String := "403 Forbidden: bot was blocked by the user"

/-- The default configuration created by `start` (main.py lines 365-377). -/
def udBase : UserData :=
  { trading_enabled := false
    testnet := false
    api_key := ""
    api_secret := ""
    leverage := 10
    margin_usdt := 50
    signals_4h_enabled := true
    signals_24h_enabled := true
    price_oi_coeff := 1 / 2
    stop_loss_pct := 2
    take_profit_pcts := [4, 6]
    trailing_enabled := false
    trailing_activation_pct := 3 / 2
    trailing_rate_pct := 1 / 2
    volume_filter_enabled := false
    volume_multiplier := 2
    blacklist := []
    last_signal_time := [] }

/-- Subscriber with a strict price/OI coefficient of 0.1. -/
def udA : UserData := { udBase with price_oi_coeff := 1 / 10 }

/-- Subscriber with the default coefficient and trading enabled. -/
def udB : UserData := { udBase with trading_enabled := true }

/-- Subscriber with stored credentials and trading disabled. -/
def udC : UserData := { udBase with api_key := keyK }

/-- Subscriber with trading enabled and the scanned symbol blacklisted. -/
def udBl : UserData := { udBase with trading_enabled := true, blacklist := [sym0] }

/-- Market data with 20 percent OI growth and 5 percent price growth over 4h,
flat over 24h, and open interest above the floor. -/
def md0 : MarketData :=
  { oi4h := [500000, 600000]
    oi24h := List.replicate 288 600000
    kl4h := [100, 105]
    kl24h := [105, 105] }

/-- The growth metrics `check_symbol` derives from `md0`. -/
def m0 : ScanMetrics :=
  { oi_growth_4h := 20
    oi_growth_24h := 0
    price_growth_4h := 5
    price_growth_24h := 0
    price_now := 105
    oi_now := 600000 }

/-- Environment in which every exchange call succeeds: leverage accepted,
entry filled (a 500-contract position is visible), both take-profit levels
accepted and visible among the open orders. -/
def envOk : Env :=
  { leverage1 := .ok 0
    leverage2 := .ok 0
    volume_ok := .ok true
    entry1 := .ok 0
    entry2 := .ok 0
    positions := .ok [(symDash0, 500)]
    verify_close := .ok 0
    tp1 := [0, 0]
    tp2 := [0, 0]
    tp_fail_close := .ok 0
    open_orders := .ok [strTPM, strTPM]
    cancel_all := .ok 0
    mismatch_close := .ok 0
    trailing := .ok 0
    handler_close := .ok 0 }

/-- Like `envOk` but the first leverage call is rejected as mode-incompatible
and the one-way retry succeeds. -/
def envC2 : Env := { envOk with leverage1 := .ok 109400 }

/-- Like `envOk` but the very first exchange call (set_leverage) raises. -/
def envC1 : Env := { envOk with leverage1 := .error .transport }

/-- Like `envOk` but the position query returns no position for the symbol. -/
def envW5 : Env := { envOk with positions := .ok [] }

/-! ## Theorems -/

set_option maxRecDepth 8000

attribute [local semireducible] Rat.mul Rat.add Rat.sub Rat.inv

/-! ### String-transform lemmas -/

theorem pyReplaceAux_nil (pat rep : List Char) (fuel : ℕ) :
    pyReplaceAux pat rep fuel [] = [] := by
  cases fuel <;> simp [pyReplaceAux]

theorem pyReplaceAux_single (c : Char) :
    ∀ fuel s, s.length ≤ fuel →
      pyReplaceAux [c] [] fuel s = s.filter (fun a => a != c) := by
  intro fuel
  induction fuel with
  | zero =>
    intro s hs
    have hnil : s = [] := List.eq_nil_of_length_eq_zero (Nat.le_zero.mp hs)
    subst hnil
    simp [pyReplaceAux]
  | succ n ih =>
    intro s hs
    match s with
    | [] => simp [pyReplaceAux]
    | a :: rest =>
      have hlen : rest.length ≤ n := by
        simp only [List.length_cons] at hs; omega
      rw [pyReplaceAux]
      by_cases h : a = c
      · subst h
        rw [if_pos ⟨by simp, by simp⟩]
        simpa [List.filter_cons] using ih rest hlen
      · rw [if_neg (by simp [h])]
        simp [List.filter_cons, h, ih rest hlen]

theorem pyReplace_single (c : Char) (s : List Char) :
    pyReplace [c] [] s = s.filter (fun a => a != c) :=
  pyReplaceAux_single c s.length s le_rfl

theorem filter_pyReplaceAux (pat rep : List Char) (c : Char)
    (hc : rep.filter (fun a => a != c) = pat.filter (fun a => a != c)) :
    ∀ fuel s, s.length ≤ fuel →
      (pyReplaceAux pat rep fuel s).filter (fun a => a != c)
        = s.filter (fun a => a != c) := by
  intro fuel
  induction fuel with
  | zero =>
    intro s hs
    have hnil : s = [] := List.eq_nil_of_length_eq_zero (Nat.le_zero.mp hs)
    subst hnil
    simp [pyReplaceAux]
  | succ n ih =>
    intro s hs
    match s with
    | [] => simp [pyReplaceAux]
    | a :: rest =>
      rw [pyReplaceAux]
      split
      · next h =>
        have hp : 0 < pat.length := List.length_pos.mpr h.1
        have hlen : ((a :: rest).drop pat.length).length ≤ n := by
          simp only [List.length_drop, List.length_cons]
          simp only [List.length_cons] at hs
          omega
        have hsplit : pat ++ (a :: rest).drop pat.length = a :: rest := by
          conv_rhs => rw [← List.take_append_drop pat.length (a :: rest)]
          rw [h.2]
        calc ((rep ++ pyReplaceAux pat rep n ((a :: rest).drop pat.length)).filter
                (fun x => x != c))
            = rep.filter (fun x => x != c)
              ++ (pyReplaceAux pat rep n ((a :: rest).drop pat.length)).filter
                  (fun x => x != c) := by rw [List.filter_append]
          _ = pat.filter (fun x => x != c)
              ++ ((a :: rest).drop pat.length).filter (fun x => x != c) := by
                rw [hc, ih _ hlen]
          _ = (pat ++ (a :: rest).drop pat.length).filter (fun x => x != c) := by
                rw [List.filter_append]
          _ = (a :: rest).filter (fun x => x != c) := by rw [hsplit]
      · next h =>
        have hlen : rest.length ≤ n := by
          simp only [List.length_cons] at hs; omega
        simp only [List.filter_cons, ih rest hlen]

theorem filter_pyReplace (pat rep : List Char) (c : Char)
    (hc : rep.filter (fun a => a != c) = pat.filter (fun a => a != c))
    (s : List Char) :
    (pyReplace pat rep s).filter (fun a => a != c)
      = s.filter (fun a => a != c) :=
  filter_pyReplaceAux pat rep c hc s.length s le_rfl

theorem filter_filter_comm (p q : Char → Bool) (l : List Char) :
    (l.filter p).filter q = (l.filter q).filter p := by
  induction l with
  | nil => simp
  | cons a t ih =>
    by_cases hp : p a <;> by_cases hq : q a <;>
      simp [List.filter_cons, hp, hq, ih]

theorem filter_idem (p : Char → Bool) (l : List Char) :
    (l.filter p).filter p = l.filter p := by
  induction l with
  | nil => simp
  | cons a t ih =>
    by_cases hp : p a <;> simp [List.filter_cons, hp, ih]

theorem to_bingx_core_idem (l : List Char) :
    pyReplace strUSDT.toList strDashUSDT.toList
      (pyReplace ['/'] [] (pyReplace ['-'] []
        (pyReplace strUSDT.toList strDashUSDT.toList
          (pyReplace ['/'] [] (pyReplace ['-'] [] l)))))
      = pyReplace strUSDT.toList strDashUSDT.toList
          (pyReplace ['/'] [] (pyReplace ['-'] [] l)) := by
  have hc : strDashUSDT.toList.filter (fun a => a != '-')
      = strUSDT.toList.filter (fun a => a != '-') := by decide
  rw [pyReplace_single '-', pyReplace_single '/',
    pyReplace_single '-', pyReplace_single '/']
  congr 1
  rw [filter_pyReplace strUSDT.toList strDashUSDT.toList '-' hc]
  rw [filter_filter_comm (fun a => a != '/') (fun a => a != '-')
    (l.filter (fun a => a != '-'))]
  rw [filter_idem (fun a => a != '-') l]
  rw [filter_idem (fun a => a != '/') (l.filter (fun a => a != '-'))]

/-- C9: the venue symbol-formatting transform `_to_bingx_symbol` is
idempotent: applying it twice yields the same string as applying it once, so
an already formatted symbol such as BTC-USDT passes through unchanged. -/
theorem c9_to_bingx_symbol_idem (s : String) :
    _to_bingx_symbol (_to_bingx_symbol s) = _to_bingx_symbol s :=
  congrArg String.mk (to_bingx_core_idem s.toList)

/-! ### Take-profit split (C3) -/

theorem map_const_eq_replicate {α β : Type} (l : List α) (b : β) :
    l.map (fun _ => b) = List.replicate l.length b := by
  induction l with
  | nil => simp
  | cons a t ih => simp [ih, List.replicate_succ]

/-- C3 counterexample: the claim says the sum of the per-level take-profit
quantities never exceeds the requested quantity.  With quantity 1, an
integer mark price (precision 0, so the rule rounds to 4 decimals) and six
levels, each level gets round(1/6, 4) = 0.1667, and the six levels sum to
1.0002 > 1. -/
theorem c3_counterexample :
    1 < ((set_multiple_tp_orders 1 5 [4, 6, 8, 10, 12, 14]).map Prod.snd).sum := by
  decide

/-- C3 amended: for a positive quantity and a non-empty level list, every
level receives the quantity round(Q/N, rule) with the precision-keyed rule,
and the sum of the level quantities equals N * round(Q/N, rule) — which can
exceed Q when the division rounds up. -/
theorem c3_amended (Q mark_price : ℚ) (tp_levels : List ℚ)
    (_h : tp_levels ≠ []) :
    (set_multiple_tp_orders Q mark_price tp_levels).map Prod.snd
        = List.replicate tp_levels.length
            (pyRound (qty_round_of (count_decimal_places mark_price))
              (Q / (tp_levels.length : ℚ)))
      ∧ ((set_multiple_tp_orders Q mark_price tp_levels).map Prod.snd).sum
        = (tp_levels.length : ℚ)
          * pyRound (qty_round_of (count_decimal_places mark_price))
              (Q / (tp_levels.length : ℚ)) := by
  have h1 : (set_multiple_tp_orders Q mark_price tp_levels).map Prod.snd
      = List.replicate tp_levels.length
          (pyRound (qty_round_of (count_decimal_places mark_price))
            (Q / (tp_levels.length : ℚ))) := by
    simp only [set_multiple_tp_orders, List.map_map]
    exact map_const_eq_replicate tp_levels _
  refine ⟨h1, ?_⟩
  rw [h1, List.sum_replicate, nsmul_eq_mul]

/-- Witness for the amended C3 at quantity 1, mark price 5 and two levels. -/
theorem c3_amended_witness :
    (([4, 6] : List ℚ) ≠ [])
      ∧ ((set_multiple_tp_orders 1 5 [4, 6]).map Prod.snd
          = List.replicate (([4, 6] : List ℚ)).length
              (pyRound (qty_round_of (count_decimal_places 5))
                (1 / ((([4, 6] : List ℚ)).length : ℚ)))
        ∧ ((set_multiple_tp_orders 1 5 [4, 6]).map Prod.snd).sum
          = ((([4, 6] : List ℚ)).length : ℚ)
            * pyRound (qty_round_of (count_decimal_places 5))
                (1 / ((([4, 6] : List ℚ)).length : ℚ))) :=
  ⟨by decide, c3_amended 1 5 [4, 6] (by decide)⟩

/-! ### Store and alert lemmas -/

theorem lookupKey_setKey_self {β : Type} (l : List (String × β)) (k : String)
    (v : β) : lookupKey (setKey l k v) k = some v := by
  induction l with
  | nil => simp [setKey, lookupKey, List.find?]
  | cons p rest ih =>
    by_cases h : p.1 == k
    · simp [setKey, h, lookupKey, List.find?]
    · simp only [setKey, h, if_false, Bool.false_eq_true]
      simpa [lookupKey, List.find?, h] using ih

theorem lookupKey_setKey_ne {β : Type} (l : List (String × β)) (k k' : String)
    (v : β) (h : k' ≠ k) : lookupKey (setKey l k v) k' = lookupKey l k' := by
  have hb : (k == k') = false := by
    simpa [beq_iff_eq] using fun he => h he.symm
  induction l with
  | nil => simp [setKey, lookupKey, List.find?, hb]
  | cons p rest ih =>
    by_cases hp : p.1 == k
    · have hp1 : p.1 = k := by simpa [beq_iff_eq] using hp
      simp [setKey, hp, lookupKey, List.find?, hb, hp1]
    · simp only [setKey, hp, if_false, Bool.false_eq_true]
      by_cases hq : p.1 == k'
      · simp [lookupKey, List.find?, hq]
      · simpa [lookupKey, List.find?, hq] using ih

theorem lookupKey_of_mem_nodup {β : Type} (l : List (String × β))
    (hnd : (l.map Prod.fst).Nodup) (k : String) (v : β) (h : (k, v) ∈ l) :
    lookupKey l k = some v := by
  induction l with
  | nil => cases h
  | cons p rest ih =>
    rcases List.mem_cons.mp h with h1 | h1
    · subst h1
      simp [lookupKey, List.find?]
    · have hk : k ∈ rest.map Prod.fst :=
        List.mem_map.mpr ⟨(k, v), h1, rfl⟩
      have hne : p.1 ≠ k := by
        intro he
        exact (List.nodup_cons.mp (by simpa using hnd)).1 (he ▸ hk)
      have hnd2 : (rest.map Prod.fst).Nodup :=
        (List.nodup_cons.mp (by simpa using hnd)).2
      have hb : (p.1 == k) = false := by simpa [beq_iff_eq] using hne
      simpa [lookupKey, List.find?, hb] using ih hnd2 h1

theorem send_alert_no_submit (err : Option (List Char)) (cid : String)
    (disk : Users) (a b : String) :
    Ev.submit a b ∉ (send_alert err cid disk).2 := by
  cases err <;> simp [send_alert] <;> split_ifs <;> simp

theorem send_alert_no_save (err : Option (List Char)) (cid : String)
    (disk : Users) (st : Users) :
    Ev.save st ∉ (send_alert err cid disk).2 := by
  cases err <;> simp [send_alert] <;> split_ifs <;> simp

theorem send_alert_disk_not_blocked (err : Option (List Char)) (cid : String)
    (disk : Users) (h : blockedErr err = false) :
    (send_alert err cid disk).1 = disk := by
  cases err with
  | none => rfl
  | some e =>
    simp only [blockedErr] at h
    have h' : ¬((containsSub strForbidden.toList e
        && containsSub strBlocked.toList e) = true) := by
      intro hand
      rw [Bool.and_eq_true] at hand
      rw [hand.1, hand.2] at h
      simp at h
    simp only [send_alert]
    rw [if_neg h']

/-! ### C7: short 24h window means no signal -/

/-- C7: whenever the fetched 24h open-interest history has fewer than the 288
expected points, `check_symbol` leaves the store untouched and emits no
event: no metrics are derived, no alert is sent, no trade is started. -/
theorem c7_short_window_no_signal (telegram : String → Option (List Char))
    (now : Int) (symbol : String) (md : MarketData) (disk : Users)
    (h : md.oi24h.length < 288) :
    check_symbol telegram now symbol md disk = (disk, []) := by
  unfold check_symbol
  rw [if_pos h]

/-- Witness for C7 at an empty 24h series. -/
theorem c7_witness :
    ((MarketData.mk [] [] [] []).oi24h.length < 288)
      ∧ check_symbol (fun _ => none) 0 sym0 (MarketData.mk [] [] [] []) []
          = ([], []) :=
  ⟨by decide,
    c7_short_window_no_signal (fun _ => none) 0 sym0 (MarketData.mk [] [] [] [])
      [] (by decide)⟩

/-! ### C6: cooldown write happens before execution is started -/

/-- C6: whenever the subscriber loop body submits an execution task for a
symbol, the emitted events contain a durable store write strictly before the
submission, and the written store already records the current time as the
last-signal timestamp of that user and symbol; the same store is also the
loop body's resulting persisted store. -/
theorem c6_save_before_submit
    (telegram : String → Option (List Char)) (now : Int) (symbol : String)
    (m : ScanMetrics) (disk mem : Users) (chat_id : String) (ud : UserData)
    (h : Ev.submit chat_id symbol ∈
        (process_user telegram now symbol m disk mem chat_id ud).2.2.1) :
    ∃ pre post,
      (process_user telegram now symbol m disk mem chat_id ud).2.2.1
          = pre ++ Ev.save (setKey mem chat_id (updLast ud symbol now)) :: post
        ∧ Ev.submit chat_id symbol ∈ post
        ∧ lookupKey (setKey mem chat_id (updLast ud symbol now)) chat_id
            = some (updLast ud symbol now)
        ∧ lookupKey (updLast ud symbol now).last_signal_time symbol = some now
        ∧ (process_user telegram now symbol m disk mem chat_id ud).1
            = setKey mem chat_id (updLast ud symbol now) := by
  by_cases hf : signal_fires m ud
  · by_cases ht : ud.trading_enabled
    · rcases hLK : lookupKey ud.last_signal_time symbol with _ | t
      · by_cases hb : symbol ∈ ud.blacklist
        · exfalso
          simp [process_user, hf, ht, hLK, hb] at h
          exact send_alert_no_submit _ _ _ _ _ h
        · refine ⟨(send_alert (telegram chat_id) chat_id disk).2,
            [Ev.submit chat_id symbol], ?_, by simp,
            lookupKey_setKey_self _ _ _,
            by simpa [updLast] using
              lookupKey_setKey_self ud.last_signal_time symbol now, ?_⟩
          · simp [process_user, hf, ht, hLK, hb]
          · simp [process_user, hf, ht, hLK, hb]
      · by_cases hcool : now - t < SIGNAL_COOLDOWN_HOURS * 3600
        · exfalso
          simp [process_user, hf, ht, hLK, hcool] at h
          exact send_alert_no_submit _ _ _ _ _ h
        · by_cases hb : symbol ∈ ud.blacklist
          · exfalso
            simp [process_user, hf, ht, hLK, hcool, hb] at h
            exact send_alert_no_submit _ _ _ _ _ h
          · refine ⟨(send_alert (telegram chat_id) chat_id disk).2,
              [Ev.submit chat_id symbol], ?_, by simp,
              lookupKey_setKey_self _ _ _,
              by simpa [updLast] using
                lookupKey_setKey_self ud.last_signal_time symbol now, ?_⟩
            · simp [process_user, hf, ht, hLK, hcool, hb]
            · simp [process_user, hf, ht, hLK, hcool, hb]
    · exfalso
      simp [process_user, hf, ht] at h
      exact send_alert_no_submit _ _ _ _ _ h
  · exfalso
    simp [process_user, hf] at h

/-- Witness for C6: with the metrics of `md0` and subscriber `udB` (trading
enabled, empty cooldown map, empty blacklist) the loop body submits a trade,
and the save-before-submit decomposition holds. -/
theorem c6_witness :
    (Ev.submit chat2 sym0 ∈
        (process_user (fun _ => none) 1000 sym0 m0 [(chat2, udB)]
          [(chat2, udB)] chat2 udB).2.2.1)
      ∧ ∃ pre post,
        (process_user (fun _ => none) 1000 sym0 m0 [(chat2, udB)]
            [(chat2, udB)] chat2 udB).2.2.1
            = pre ++ Ev.save (setKey [(chat2, udB)] chat2 (updLast udB sym0 1000))
                :: post
          ∧ Ev.submit chat2 sym0 ∈ post
          ∧ lookupKey (setKey [(chat2, udB)] chat2 (updLast udB sym0 1000)) chat2
              = some (updLast udB sym0 1000)
          ∧ lookupKey (updLast udB sym0 1000).last_signal_time sym0 = some 1000
          ∧ (process_user (fun _ => none) 1000 sym0 m0 [(chat2, udB)]
              [(chat2, udB)] chat2 udB).1
              = setKey [(chat2, udB)] chat2 (updLast udB sym0 1000) :=
  ⟨by decide,
    c6_save_before_submit (fun _ => none) 1000 sym0 m0 [(chat2, udB)]
      [(chat2, udB)] chat2 udB (by decide)⟩

/-! ### C10: the blacklist check runs only after the cooldown write -/

/-- C10: when a signal fires for a trading-enabled subscriber and the
cooldown check accepts, the loop body records and durably saves the
last-signal timestamp even when the symbol is blacklisted; no execution task
is submitted and the loop proceeds to the next subscriber, so the
blacklisted symbol consumes the cooldown window without any trade attempt. -/
theorem c10_blacklist_consumes_cooldown
    (telegram : String → Option (List Char)) (now : Int) (symbol : String)
    (m : ScanMetrics) (disk mem : Users) (chat_id : String) (ud : UserData)
    (hfire : signal_fires m ud = true)
    (htrade : ud.trading_enabled = true)
    (hcool : ∀ t, lookupKey ud.last_signal_time symbol = some t →
        ¬(now - t < SIGNAL_COOLDOWN_HOURS * 3600))
    (hbl : symbol ∈ ud.blacklist) :
    Ev.save (setKey mem chat_id (updLast ud symbol now))
        ∈ (process_user telegram now symbol m disk mem chat_id ud).2.2.1
      ∧ (∀ s2, Ev.submit chat_id s2 ∉
          (process_user telegram now symbol m disk mem chat_id ud).2.2.1)
      ∧ lookupKey (process_user telegram now symbol m disk mem chat_id ud).2.1
          chat_id = some (updLast ud symbol now)
      ∧ lookupKey (updLast ud symbol now).last_signal_time symbol = some now
      ∧ (process_user telegram now symbol m disk mem chat_id ud).1
          = setKey mem chat_id (updLast ud symbol now)
      ∧ (process_user telegram now symbol m disk mem chat_id ud).2.2.2 = true := by
  rcases hLK : lookupKey ud.last_signal_time symbol with _ | t
  · refine ⟨by simp [process_user, hfire, htrade, hLK, hbl],
      fun s2 => ?_,
      by simp [process_user, hfire, htrade, hLK, hbl, lookupKey_setKey_self],
      by simpa [updLast] using
        lookupKey_setKey_self ud.last_signal_time symbol now,
      by simp [process_user, hfire, htrade, hLK, hbl],
      by simp [process_user, hfire, htrade, hLK, hbl]⟩
    intro hmem
    simp [process_user, hfire, htrade, hLK, hbl] at hmem
    exact send_alert_no_submit _ _ _ _ _ hmem
  · have hc := hcool t hLK
    refine ⟨by simp [process_user, hfire, htrade, hLK, hc, hbl],
      fun s2 => ?_,
      by simp [process_user, hfire, htrade, hLK, hc, hbl, lookupKey_setKey_self],
      by simpa [updLast] using
        lookupKey_setKey_self ud.last_signal_time symbol now,
      by simp [process_user, hfire, htrade, hLK, hc, hbl],
      by simp [process_user, hfire, htrade, hLK, hc, hbl]⟩
    intro hmem
    simp [process_user, hfire, htrade, hLK, hc, hbl] at hmem
    exact send_alert_no_submit _ _ _ _ _ hmem

/-- Witness for C10: subscriber `udBl` blacklists the scanned symbol but the
signal fires and there is no previous signal time; the timestamp is saved
and no trade task is submitted. -/
theorem c10_witness :
    (signal_fires m0 udBl = true ∧ udBl.trading_enabled = true
        ∧ sym0 ∈ udBl.blacklist)
      ∧ (Ev.save (setKey [(chat1, udBl)] chat1 (updLast udBl sym0 1000))
          ∈ (process_user (fun _ => none) 1000 sym0 m0 [(chat1, udBl)]
              [(chat1, udBl)] chat1 udBl).2.2.1
        ∧ (∀ s2, Ev.submit chat1 s2 ∉
            (process_user (fun _ => none) 1000 sym0 m0 [(chat1, udBl)]
              [(chat1, udBl)] chat1 udBl).2.2.1)
        ∧ lookupKey (process_user (fun _ => none) 1000 sym0 m0 [(chat1, udBl)]
            [(chat1, udBl)] chat1 udBl).2.1 chat1
            = some (updLast udBl sym0 1000)
        ∧ lookupKey (updLast udBl sym0 1000).last_signal_time sym0 = some 1000
        ∧ (process_user (fun _ => none) 1000 sym0 m0 [(chat1, udBl)]
            [(chat1, udBl)] chat1 udBl).1
            = setKey [(chat1, udBl)] chat1 (updLast udBl sym0 1000)
        ∧ (process_user (fun _ => none) 1000 sym0 m0 [(chat1, udBl)]
            [(chat1, udBl)] chat1 udBl).2.2.2 = true) :=
  ⟨⟨by decide, by decide, by decide⟩,
    c10_blacklist_consumes_cooldown (fun _ => none) 1000 sym0 m0 [(chat1, udBl)]
      [(chat1, udBl)] chat1 udBl (by decide) (by decide)
      (by intro t ht; simp [lookupKey, udBl, udBase, List.find?] at ht)
      (by decide)⟩

/-! ### C4: evaluation aborts at the first non-matching subscriber -/

/-- C4, divergence exhibit: with `md0` the derived metrics are `m0` (20
percent OI growth, 5 percent price growth over 4h).  Subscriber 1
(coefficient 0.1) does not meet their thresholds while subscriber 2
(coefficient 0.5) does.  The loop hits the `return None` at main.py line 158
on subscriber 1 and the scan ends with no event at all — subscriber 2 is
never alerted — although the same scan with subscriber 2 alone does alert
them.  The claim instead requires subscriber 1 to be skipped without
affecting subscriber 2. -/
theorem c4_divergence :
    check_symbol (fun _ => none) 1000 sym0 md0 [(chat1, udA), (chat2, udB)]
        = ([(chat1, udA), (chat2, udB)], [])
      ∧ signal_fires m0 udA = false
      ∧ signal_fires m0 udB = true
      ∧ Ev.alert chat2
          ∈ (check_symbol (fun _ => none) 1000 sym0 md0 [(chat2, udB)]).2 :=
  ⟨by decide, by decide, by decide, by decide⟩

/-! ### C8: what the scan loop writes to the user store -/

theorem process_user_storeRel
    (telegram : String → Option (List Char)) (now : Int) (symbol : String)
    (m : ScanMetrics) (store disk mem : Users) (cid : String) (ud : UserData)
    (hnd : (store.map Prod.fst).Nodup)
    (hmem : (cid, ud) ∈ store)
    (hblk : blockedErr (telegram cid) = false)
    (hd : storeRel store disk) (hm : storeRel store mem) :
    storeRel store (process_user telegram now symbol m disk mem cid ud).1
      ∧ storeRel store (process_user telegram now symbol m disk mem cid ud).2.1 := by
  have hsa : (send_alert (telegram cid) cid disk).1 = disk :=
    send_alert_disk_not_blocked _ _ _ hblk
  have hmem1 : storeRel store (setKey mem cid (updLast ud symbol now)) := by
    intro cid' ud0' hlk
    by_cases hc : cid' = cid
    · subst hc
      have hs : lookupKey store cid' = some ud :=
        lookupKey_of_mem_nodup store hnd _ _ hmem
      have hud : ud0' = ud := by
        rw [hs] at hlk
        exact (Option.some.inj hlk).symm
      subst hud
      exact ⟨updLast ud0' symbol now, lookupKey_setKey_self _ _ _, rfl⟩
    · rw [lookupKey_setKey_ne mem cid cid' _ hc]
      exact hm cid' ud0' hlk
  have hcase : ((process_user telegram now symbol m disk mem cid ud).1 = disk
        ∧ (process_user telegram now symbol m disk mem cid ud).2.1 = mem)
      ∨ ((process_user telegram now symbol m disk mem cid ud).1
            = setKey mem cid (updLast ud symbol now)
        ∧ (process_user telegram now symbol m disk mem cid ud).2.1
            = setKey mem cid (updLast ud symbol now)) := by
    by_cases hf : signal_fires m ud
    · by_cases ht : ud.trading_enabled
      · rcases hLK : lookupKey ud.last_signal_time symbol with _ | t
        · by_cases hb : symbol ∈ ud.blacklist
          · right
            constructor <;> simp [process_user, hf, ht, hLK, hb]
          · right
            constructor <;> simp [process_user, hf, ht, hLK, hb]
        · by_cases hcool : now - t < SIGNAL_COOLDOWN_HOURS * 3600
          · left
            constructor <;> simp [process_user, hf, ht, hLK, hcool, hsa]
          · by_cases hb : symbol ∈ ud.blacklist
            · right
              constructor <;> simp [process_user, hf, ht, hLK, hcool, hb]
            · right
              constructor <;> simp [process_user, hf, ht, hLK, hcool, hb]
      · left
        constructor <;> simp [process_user, hf, ht, hsa]
    · left
      constructor <;> simp [process_user, hf]
  rcases hcase with ⟨h1, h2⟩ | ⟨h1, h2⟩
  · constructor
    · rw [h1]; exact hd
    · rw [h2]; exact hm
  · constructor
    · rw [h1]; exact hmem1
    · rw [h2]; exact hmem1

theorem users_loop_storeRel
    (telegram : String → Option (List Char)) (now : Int) (symbol : String)
    (m : ScanMetrics) (store : Users)
    (hnd : (store.map Prod.fst).Nodup) :
    ∀ L disk mem,
      (∀ p ∈ L, p ∈ store) →
      (∀ p ∈ L, blockedErr (telegram p.1) = false) →
      storeRel store disk → storeRel store mem →
      storeRel store (users_loop telegram now symbol m disk mem L).1
        ∧ storeRel store (users_loop telegram now symbol m disk mem L).2.1 := by
  intro L
  induction L with
  | nil =>
    intro disk mem _ _ hd hm
    simpa [users_loop] using And.intro hd hm
  | cons p rest ih =>
    obtain ⟨cid, ud⟩ := p
    intro disk mem hL hB hd hm
    obtain ⟨hp1, hp2⟩ := process_user_storeRel telegram now symbol m store disk
      mem cid ud hnd (by simpa using hL (cid, ud) (by simp))
      (hB (cid, ud) (by simp)) hd hm
    simp only [users_loop]
    split
    · exact ih (process_user telegram now symbol m disk mem cid ud).1
        (process_user telegram now symbol m disk mem cid ud).2.1
        (fun q hq => hL q (by simp [hq])) (fun q hq => hB q (by simp [hq]))
        hp1 hp2
    · exact ⟨hp1, hp2⟩

/-- C8 counterexample: the claim says the signal-to-execution path changes
nothing in a user record beyond the last-signal map.  But when the alert
send fails because the subscriber blocked the bot, `send_alert` deletes the
whole record: after one scan of `md0`, subscriber 1 (stored credentials,
trading disabled) has vanished from the persisted store. -/
theorem c8_counterexample :
    lookupKey (check_symbol (fun _ => some errBlockedMsg.toList) 1000 sym0 md0
        [(chat1, udC)]).1 chat1 = none
      ∧ lookupKey [(chat1, udC)] chat1 = some udC
      ∧ udC.api_key = keyK :=
  ⟨by decide, by decide, by decide⟩

/-- C8 amended: as long as no alert delivery fails with a
blocked-by-the-user Telegram error during the scan, every record of the
store survives `check_symbol` with at most its last-signal timestamp map
changed — credentials, leverage, margin, blacklist, thresholds and enable
flags are untouched.  (When such a delivery failure does occur, `send_alert`
deletes that subscriber's entire record, as the counterexample shows.) -/
theorem c8_amended (telegram : String → Option (List Char)) (now : Int)
    (symbol : String) (md : MarketData) (store : Users)
    (hnd : (store.map Prod.fst).Nodup)
    (hblk : ∀ p ∈ store, blockedErr (telegram p.1) = false)
    (cid : String) (ud0 : UserData)
    (h : lookupKey store cid = some ud0) :
    ∃ ud1, lookupKey (check_symbol telegram now symbol md store).1 cid
        = some ud1 ∧ sameExceptLast ud0 ud1 := by
  have hrefl : storeRel store store := fun cid' ud' h' => ⟨ud', h', rfl⟩
  unfold check_symbol
  split
  · exact ⟨ud0, h, rfl⟩
  · split
    · split
      · exact ⟨ud0, h, rfl⟩
      · split
        · exact (users_loop_storeRel telegram now symbol _ store hnd store
            store store (fun _ hq => hq) hblk hrefl hrefl).1 cid ud0 h
        · exact ⟨ud0, h, rfl⟩
    · exact ⟨ud0, h, rfl⟩

/-- Witness for the amended C8: a scan over subscriber 1 with working alert
delivery leaves their record equal up to the last-signal map. -/
theorem c8_amended_witness :
    ((([(chat1, udC)] : Users).map Prod.fst).Nodup
        ∧ lookupKey [(chat1, udC)] chat1 = some udC)
      ∧ ∃ ud1, lookupKey (check_symbol (fun _ => none) 1000 sym0 md0
          [(chat1, udC)]).1 chat1 = some ud1 ∧ sameExceptLast udC ud1 :=
  ⟨⟨by decide, by decide⟩,
    c8_amended (fun _ => none) 1000 sym0 md0 [(chat1, udC)] (by decide)
      (fun _ _ => rfl) chat1 udC (by decide)⟩

/-! ### Sequencer trace lemmas (C1, C2, C5) -/

theorem postCall_shortOrder (owm : Bool) (q : ℚ) (stp : Option ℚ) (ro : Bool) :
    postCall owm (Call.marketOrder sShort q owm ro stp) := by
  refine ⟨by simp, ?_, by simp⟩
  intro q' b' ro' stp' hEq
  injection hEq with h1 h2 h3 h4 h5
  exact h3.symm

theorem postCall_longOrder (owm : Bool) (q : ℚ) (b : Bool) (stp : Option ℚ) :
    postCall owm (Call.marketOrder sLong q b false stp) := by
  refine ⟨by simp, ?_, by simp⟩
  intro q' b' ro' stp' hEq
  injection hEq with h1 h2 h3 h4 h5
  exact absurd h1 (by decide)

theorem postCall_setTp (owm : Bool) (q : ℚ) :
    postCall owm (Call.setTp q owm) := by
  refine ⟨by simp, by simp, ?_⟩
  intro q' b' hEq
  injection hEq with h1 h2
  exact h2.symm

theorem postCall_volumeCheck (owm : Bool) : postCall owm Call.volumeCheck :=
  ⟨by simp, by simp, by simp⟩

theorem postCall_getPositions (owm : Bool) : postCall owm Call.getPositions :=
  ⟨by simp, by simp, by simp⟩

theorem postCall_getOpenOrders (owm : Bool) : postCall owm Call.getOpenOrders :=
  ⟨by simp, by simp, by simp⟩

theorem postCall_cancelOrders (owm : Bool) : postCall owm Call.cancelOrders :=
  ⟨by simp, by simp, by simp⟩

theorem postCall_setTrailing (owm : Bool) : postCall owm Call.setTrailing :=
  ⟨by simp, by simp, by simp⟩

theorem ext_shift (owm : Bool) (tr mid l : List Call)
    (h : ∃ ext, l = (tr ++ mid) ++ ext ∧ ∀ c ∈ ext, postCall owm c)
    (hm : ∀ c ∈ mid, postCall owm c) :
    ∃ ext, l = tr ++ ext ∧ ∀ c ∈ ext, postCall owm c := by
  obtain ⟨ext, he, hp⟩ := h
  refine ⟨mid ++ ext, by rw [he, List.append_assoc], ?_⟩
  intro c hc
  rcases List.mem_append.mp hc with h1 | h1
  exacts [hm c h1, hp c h1]

theorem run_handler_ext (resp : Option Int) (qty : ℚ) (owm : Bool) (e : Exc)
    (tr : List Call) :
    ∃ ext, (run_handler resp qty owm e tr).2 = tr ++ ext
      ∧ ∀ c ∈ ext, postCall owm c := by
  cases resp with
  | none => exact ⟨[], by simp [run_handler], by simp⟩
  | some r =>
    refine ⟨[Call.marketOrder sShort qty owm true none],
      by simp [run_handler], ?_⟩
    intro c hc
    simp only [List.mem_singleton] at hc
    subst hc
    exact postCall_shortOrder owm qty none true

theorem run_trailing_ext (env : Env) (ud : UserData) (qty : ℚ) (owm : Bool)
    (resp : Int) (tr : List Call) :
    ∃ ext, (run_trailing env ud qty owm resp tr).2 = tr ++ ext
      ∧ ∀ c ∈ ext, postCall owm c := by
  unfold run_trailing
  by_cases ht : ud.trailing_enabled
  · rcases henv : env.trailing with e | v
    · simp only [ht, if_true, henv]
      exact ext_shift owm tr [Call.setTrailing] _
        (run_handler_ext (some resp) qty owm e (tr ++ [Call.setTrailing]))
        (by intro c hc; simp only [List.mem_singleton] at hc; subst hc
            exact postCall_setTrailing owm)
    · simp only [ht, if_true, henv]
      refine ⟨[Call.setTrailing], rfl, ?_⟩
      intro c hc
      simp only [List.mem_singleton] at hc
      subst hc
      exact postCall_setTrailing owm
  · simp only [ht, if_false]
    exact ⟨[], by simp, by simp⟩

theorem pc_single (owm : Bool) {a : Call} (ha : postCall owm a) :
    ∀ c ∈ [a], postCall owm c := by
  intro c hc
  simp only [List.mem_singleton] at hc
  subst hc
  exact ha

theorem pc_pair (owm : Bool) {a b : Call} (ha : postCall owm a)
    (hb : postCall owm b) : ∀ c ∈ [a, b], postCall owm c := by
  intro c hc
  rcases List.mem_cons.mp hc with rfl | hc2
  · exact ha
  · simp only [List.mem_singleton] at hc2
    subst hc2
    exact hb

theorem run_verify_tps_ext (env : Env) (ud : UserData) (qty : ℚ) (owm : Bool)
    (resp : Int) (tr : List Call) :
    ∃ ext, (run_verify_tps env ud qty owm resp tr).2 = tr ++ ext
      ∧ ∀ c ∈ ext, postCall owm c := by
  unfold run_verify_tps
  rcases ho : env.open_orders with e | orders
  · simp only [ho]
    exact ext_shift owm tr [Call.getOpenOrders] _
      (run_handler_ext (some resp) qty owm e _)
      (pc_single owm (postCall_getOpenOrders owm))
  · simp only [ho]
    by_cases hcnt : (List.filter (fun o => o == strTPM) orders).length
        ≠ ud.take_profit_pcts.length
    · rw [if_pos hcnt]
      rcases hca : env.cancel_all with e | v
      · simp only [hca]
        refine ext_shift owm tr [Call.getOpenOrders] _ ?_
          (pc_single owm (postCall_getOpenOrders owm))
        exact ext_shift owm (tr ++ [Call.getOpenOrders]) [Call.cancelOrders] _
          (run_handler_ext (some resp) qty owm e _)
          (pc_single owm (postCall_cancelOrders owm))
      · simp only [hca]
        rcases hmc : env.mismatch_close with e2 | v2
        · simp only [hmc]
          refine ext_shift owm tr [Call.getOpenOrders] _ ?_
            (pc_single owm (postCall_getOpenOrders owm))
          exact ext_shift owm (tr ++ [Call.getOpenOrders])
            [Call.cancelOrders, Call.marketOrder sShort qty owm true none] _
            (run_handler_ext (some resp) qty owm e2 _)
            (pc_pair owm (postCall_cancelOrders owm)
              (postCall_shortOrder owm qty none true))
        · simp only [hmc]
          refine ext_shift owm tr [Call.getOpenOrders] _ ?_
            (pc_single owm (postCall_getOpenOrders owm))
          exact ext_shift owm (tr ++ [Call.getOpenOrders])
            [Call.cancelOrders, Call.marketOrder sShort qty owm true none] _
            ⟨[], by simp, by simp⟩
            (pc_pair owm (postCall_cancelOrders owm)
              (postCall_shortOrder owm qty none true))
    · rw [if_neg hcnt]
      exact ext_shift owm tr [Call.getOpenOrders] _
        (run_trailing_ext env ud qty owm resp _)
        (pc_single owm (postCall_getOpenOrders owm))

theorem run_tps_ext (env : Env) (ud : UserData) (qty : ℚ) (owm : Bool)
    (resp : Int) (tr : List Call) :
    ∃ ext, (run_tps env ud qty owm resp tr).2 = tr ++ ext
      ∧ ∀ c ∈ ext, postCall owm c := by
  unfold run_tps
  cases h1 : env.tp1.any (fun c => c != 0) with
  | false =>
    simp only [h1]
    exact ext_shift owm tr [Call.setTp qty owm] _
      (run_verify_tps_ext env ud qty owm resp _)
      (pc_single owm (postCall_setTp owm qty))
  | true =>
    cases h2 : env.tp2.any (fun c => c != 0) with
    | false =>
      simp only [h2]
      refine ext_shift owm tr [Call.setTp qty owm] _ ?_
        (pc_single owm (postCall_setTp owm qty))
      exact ext_shift owm (tr ++ [Call.setTp qty owm])
        [Call.setTp (qty * (99 / 100)) owm] _
        (run_verify_tps_ext env ud qty owm resp _)
        (pc_single owm (postCall_setTp owm (qty * (99 / 100))))
    | true =>
      simp only [h2]
      rcases htf : env.tp_fail_close with e | v
      · simp only [htf]
        refine ext_shift owm tr [Call.setTp qty owm] _ ?_
          (pc_single owm (postCall_setTp owm qty))
        refine ext_shift owm (tr ++ [Call.setTp qty owm])
          [Call.setTp (qty * (99 / 100)) owm] _ ?_
          (pc_single owm (postCall_setTp owm (qty * (99 / 100))))
        exact ext_shift owm
          ((tr ++ [Call.setTp qty owm]) ++ [Call.setTp (qty * (99 / 100)) owm])
          [Call.marketOrder sShort qty owm true none] _
          (run_handler_ext (some resp) qty owm e _)
          (pc_single owm (postCall_shortOrder owm qty none true))
      · simp only [htf]
        refine ext_shift owm tr [Call.setTp qty owm] _ ?_
          (pc_single owm (postCall_setTp owm qty))
        refine ext_shift owm (tr ++ [Call.setTp qty owm])
          [Call.setTp (qty * (99 / 100)) owm] _ ?_
          (pc_single owm (postCall_setTp owm (qty * (99 / 100))))
        exact ext_shift owm
          ((tr ++ [Call.setTp qty owm]) ++ [Call.setTp (qty * (99 / 100)) owm])
          [Call.marketOrder sShort qty owm true none] _
          ⟨[], by simp, by simp⟩
          (pc_single owm (postCall_shortOrder owm qty none true))

theorem run_verify_ext (env : Env) (ud : UserData) (s : String) (qty : ℚ)
    (owm : Bool) (resp : Int) (tr : List Call) :
    ∃ ext, (run_verify env ud s qty owm resp tr).2 = tr ++ ext
      ∧ ∀ c ∈ ext, postCall owm c := by
  unfold run_verify
  rcases hp : env.positions with e | poss
  · simp only [hp]
    exact ext_shift owm tr [Call.getPositions] _
      (run_handler_ext (some resp) qty owm e _)
      (pc_single owm (postCall_getPositions owm))
  · simp only [hp]
    have hclose : ∀ trc : List Call,
        ∃ ext, (match env.verify_close with
          | .error e => run_handler (some resp) qty owm e
              (trc ++ [Call.marketOrder sShort qty owm true none])
          | .ok _ => run_handler (some resp) qty owm Exc.positionNotOpened
              (trc ++ [Call.marketOrder sShort qty owm true none])).2
            = trc ++ ext ∧ ∀ c ∈ ext, postCall owm c := by
      intro trc
      rcases hvc : env.verify_close with e | v
      · exact ext_shift owm trc [Call.marketOrder sShort qty owm true none] _
          (run_handler_ext (some resp) qty owm e _)
          (pc_single owm (postCall_shortOrder owm qty none true))
      · exact ext_shift owm trc [Call.marketOrder sShort qty owm true none] _
          (run_handler_ext (some resp) qty owm Exc.positionNotOpened _)
          (pc_single owm (postCall_shortOrder owm qty none true))
    rcases hfind : poss.find? (fun p => p.1 == s) with _ | p
    · simp only [hfind]
      refine ext_shift owm tr [Call.getPositions] _ ?_
        (pc_single owm (postCall_getPositions owm))
      exact hclose (tr ++ [Call.getPositions])
    · simp only [hfind]
      cases habs : decide (|p.2| < qty * (9 / 10)) with
      | true =>
        refine ext_shift owm tr [Call.getPositions] _ ?_
          (pc_single owm (postCall_getPositions owm))
        exact hclose (tr ++ [Call.getPositions])
      | false =>
        exact ext_shift owm tr [Call.getPositions] _
          (run_tps_ext env ud qty owm resp _)
          (pc_single owm (postCall_getPositions owm))

theorem run_entry_ext (env : Env) (ud : UserData) (s : String)
    (qty stop_price : ℚ) (tr : List Call) :
    ∃ ext, (run_entry env ud s qty stop_price tr).2 = tr ++ ext
      ∧ ∀ c ∈ ext, postCall (entryOwm env) c := by
  unfold run_entry
  rcases he1 : env.entry1 with e | c1
  · simp only [he1, run_handler]
    exact ⟨[Call.marketOrder sLong qty false false (some stop_price)], rfl,
      pc_single _ (postCall_longOrder _ qty false (some stop_price))⟩
  · simp only [he1]
    have how : entryOwm env = (c1 == 109400) := by simp [entryOwm, he1]
    cases h400 : c1 == 109400 with
    | true =>
      have howt : entryOwm env = true := how.trans h400
      rw [howt]
      simp only [h400]
      rcases he2 : env.entry2 with e | c2
      · simp only [he2]
        refine ext_shift true tr
          [Call.marketOrder sLong qty false false (some stop_price)] _ ?_
          (pc_single true (postCall_longOrder true qty false (some stop_price)))
        exact ext_shift true
          (tr ++ [Call.marketOrder sLong qty false false (some stop_price)])
          [Call.marketOrder sLong qty true false (some stop_price)] _
          (run_handler_ext (some c1) qty true e _)
          (pc_single true (postCall_longOrder true qty true (some stop_price)))
      · simp only [he2]
        refine ext_shift true tr
          [Call.marketOrder sLong qty false false (some stop_price)] _ ?_
          (pc_single true (postCall_longOrder true qty false (some stop_price)))
        exact ext_shift true
          (tr ++ [Call.marketOrder sLong qty false false (some stop_price)])
          [Call.marketOrder sLong qty true false (some stop_price)] _
          (run_verify_ext env ud s qty true c2 _)
          (pc_single true (postCall_longOrder true qty true (some stop_price)))
    | false =>
      have howf : entryOwm env = false := how.trans h400
      rw [howf]
      cases h425 : c1 == 109425 with
      | true =>
        simp only [h425]
        exact ⟨[Call.marketOrder sLong qty false false (some stop_price)], rfl,
          pc_single false (postCall_longOrder false qty false (some stop_price))⟩
      | false =>
        cases hne : c1 != 0 with
        | true =>
          exact ext_shift false tr
            [Call.marketOrder sLong qty false false (some stop_price)] _
            (run_handler_ext (some c1) qty false Exc.orderFailed _)
            (pc_single false (postCall_longOrder false qty false (some stop_price)))
        | false =>
          exact ext_shift false tr
            [Call.marketOrder sLong qty false false (some stop_price)] _
            (run_verify_ext env ud s qty false c1 _)
            (pc_single false (postCall_longOrder false qty false (some stop_price)))

theorem c2_main (owm : Bool) (pre ext l : List Call) (n : ℕ)
    (heq : l = pre ++ ext)
    (hcnt : pre.count (Call.setLeverage true) = n)
    (hpre : ∀ q b ro stp, Call.marketOrder sShort q b ro stp ∉ pre)
    (hpre2 : ∀ q b, Call.setTp q b ∉ pre)
    (hp : ∀ c ∈ ext, postCall owm c) :
    l.count (Call.setLeverage true) = n
      ∧ (∀ q b ro stp, Call.marketOrder sShort q b ro stp ∈ l → b = owm)
      ∧ (∀ q b, Call.setTp q b ∈ l → b = owm) := by
  have hz : ext.count (Call.setLeverage true) = 0 := by
    rw [List.count_eq_zero]
    intro hmem
    exact (hp _ hmem).1 true rfl
  subst heq
  refine ⟨?_, ?_, ?_⟩
  · rw [List.count_append, hz, hcnt]
    omega
  · intro q b ro stp hm
    rcases List.mem_append.mp hm with h | h
    · exact absurd h (hpre q b ro stp)
    · exact (hp _ h).2.1 q b ro stp rfl
  · intro q b hm
    rcases List.mem_append.mp hm with h | h
    · exact absurd h (hpre2 q b)
    · exact (hp _ h).2.2 q b rfl

/-- C2 counterexample: the first leverage call is rejected as
mode-incompatible (code 109400) and the one-way retry succeeds, yet the
entry order and the take-profit submissions of the same attempt are placed
under the hedge convention (`both = false`), not under the one-way
convention that succeeded — the leverage fallback result is not remembered.
The claim asserts every subsequent call uses the convention that succeeded. -/
theorem c2_counterexample :
    open_trade_for_user envC2 (some udB) sym0 1
        = (Outcome.opened,
          [Call.setLeverage false, Call.setLeverage true,
            Call.marketOrder sLong 500 false false (some 1),
            Call.getPositions, Call.setTp 500 false, Call.getOpenOrders])
      ∧ envC2.leverage1 = Except.ok 109400
      ∧ envC2.leverage2 = Except.ok 0 :=
  ⟨by decide, rfl, rfl⟩

/-- C2 amended: the leverage call is retried exactly once under the one-way
convention whenever its first response has any non-zero code (the
mode-incompatible rejection included), but the convention that succeeded is
not remembered: the convention of every subsequent reduce-only close and
take-profit call of the attempt is re-derived at the entry order — it is
one-way exactly when the first entry response carried the mode-mismatch
code 109400. -/
theorem c2_amended (env : Env) (ud : UserData) (symbol : String)
    (price_now : ℚ) (hbl : symbol ∉ ud.blacklist) :
    ((open_trade_for_user env (some ud) symbol price_now).2).count
        (Call.setLeverage true)
        = (match env.leverage1 with
          | .ok c => if c == 0 then 0 else 1
          | .error _ => 0)
      ∧ (∀ q b ro stp, Call.marketOrder sShort q b ro stp
          ∈ (open_trade_for_user env (some ud) symbol price_now).2
          → b = entryOwm env)
      ∧ (∀ q b, Call.setTp q b
          ∈ (open_trade_for_user env (some ud) symbol price_now).2
          → b = entryOwm env) := by
  rcases he1 : env.leverage1 with e | c1
  · have htr : open_trade_for_user env (some ud) symbol price_now
        = (Outcome.nameError, [Call.setLeverage false]) := by
      simp [open_trade_for_user, hbl, he1, run_handler]
    rw [htr]
    exact c2_main (entryOwm env) [Call.setLeverage false] [] _ 0 (by simp)
      (by decide) (by simp) (by simp) (by simp)
  · cases hc0 : c1 != 0 with
    | true =>
      have hq0 : (c1 == 0) = false := by simpa [bne] using hc0
      rcases he2 : env.leverage2 with e | v
      · have htr : open_trade_for_user env (some ud) symbol price_now
            = (Outcome.nameError,
              [Call.setLeverage false, Call.setLeverage true]) := by
          simp [open_trade_for_user, hbl, he1, hc0, he2, run_handler]
        rw [htr]; simp only [hq0]
        exact c2_main (entryOwm env)
          [Call.setLeverage false, Call.setLeverage true] [] _ 1 (by simp)
          (by decide) (by simp) (by simp) (by simp)
      · cases hvf : ud.volume_filter_enabled with
        | true =>
          rcases hvo : env.volume_ok with e | bv
          · have htr : open_trade_for_user env (some ud) symbol price_now
                = (Outcome.nameError,
                  [Call.setLeverage false, Call.setLeverage true,
                    Call.volumeCheck]) := by
              simp [open_trade_for_user, hbl, he1, hc0, he2, hvf, hvo,
                run_handler]
            rw [htr]; simp only [hq0]
            exact c2_main (entryOwm env)
              [Call.setLeverage false, Call.setLeverage true,
                Call.volumeCheck] [] _ 1 (by simp) (by decide) (by simp)
              (by simp) (by simp)
          · cases bv with
            | true =>
              have htr : (open_trade_for_user env (some ud) symbol price_now).2
                  = (run_entry env ud (toDashSymbol symbol)
                      (qtyOf ud price_now)
                      (pyRound (count_decimal_places price_now)
                        (price_now * (1 - ud.stop_loss_pct / 100)))
                      [Call.setLeverage false, Call.setLeverage true,
                        Call.volumeCheck]).2 := by
                simp [open_trade_for_user, hbl, he1, hc0, he2, hvf, hvo]
              rw [htr]; simp only [hq0]
              obtain ⟨ext, heq, hp⟩ := run_entry_ext env ud
                (toDashSymbol symbol) (qtyOf ud price_now)
                (pyRound (count_decimal_places price_now)
                  (price_now * (1 - ud.stop_loss_pct / 100)))
                [Call.setLeverage false, Call.setLeverage true,
                  Call.volumeCheck]
              exact c2_main (entryOwm env)
                [Call.setLeverage false, Call.setLeverage true,
                  Call.volumeCheck] ext _ 1 heq (by decide) (by simp)
                (by simp) hp
            | false =>
              have htr : open_trade_for_user env (some ud) symbol price_now
                  = (Outcome.volumeBlocked,
                    [Call.setLeverage false, Call.setLeverage true,
                      Call.volumeCheck]) := by
                simp [open_trade_for_user, hbl, he1, hc0, he2, hvf, hvo]
              rw [htr]; simp only [hq0]
              exact c2_main (entryOwm env)
                [Call.setLeverage false, Call.setLeverage true,
                  Call.volumeCheck] [] _ 1 (by simp) (by decide) (by simp)
                (by simp) (by simp)
        | false =>
          have htr : (open_trade_for_user env (some ud) symbol price_now).2
              = (run_entry env ud (toDashSymbol symbol) (qtyOf ud price_now)
                  (pyRound (count_decimal_places price_now)
                    (price_now * (1 - ud.stop_loss_pct / 100)))
                  [Call.setLeverage false, Call.setLeverage true]).2 := by
            simp [open_trade_for_user, hbl, he1, hc0, he2, hvf]
          rw [htr]; simp only [hq0]
          obtain ⟨ext, heq, hp⟩ := run_entry_ext env ud (toDashSymbol symbol)
            (qtyOf ud price_now)
            (pyRound (count_decimal_places price_now)
              (price_now * (1 - ud.stop_loss_pct / 100)))
            [Call.setLeverage false, Call.setLeverage true]
          exact c2_main (entryOwm env)
            [Call.setLeverage false, Call.setLeverage true] ext _ 1 heq
            (by decide) (by simp) (by simp) hp
    | false =>
      have hq0 : (c1 == 0) = true := by simpa [bne] using hc0
      cases hvf : ud.volume_filter_enabled with
      | true =>
        rcases hvo : env.volume_ok with e | bv
        · have htr : open_trade_for_user env (some ud) symbol price_now
              = (Outcome.nameError,
                [Call.setLeverage false, Call.volumeCheck]) := by
            simp [open_trade_for_user, hbl, he1, hc0, hvf, hvo, run_handler]
          rw [htr]; simp only [hq0]
          exact c2_main (entryOwm env)
            [Call.setLeverage false, Call.volumeCheck] [] _ 0 (by simp)
            (by decide) (by simp) (by simp) (by simp)
        · cases bv with
          | true =>
            have htr : (open_trade_for_user env (some ud) symbol price_now).2
                = (run_entry env ud (toDashSymbol symbol) (qtyOf ud price_now)
                    (pyRound (count_decimal_places price_now)
                      (price_now * (1 - ud.stop_loss_pct / 100)))
                    [Call.setLeverage false, Call.volumeCheck]).2 := by
              simp [open_trade_for_user, hbl, he1, hc0, hvf, hvo]
            rw [htr]; simp only [hq0]
            obtain ⟨ext, heq, hp⟩ := run_entry_ext env ud (toDashSymbol symbol)
              (qtyOf ud price_now)
              (pyRound (count_decimal_places price_now)
                (price_now * (1 - ud.stop_loss_pct / 100)))
              [Call.setLeverage false, Call.volumeCheck]
            exact c2_main (entryOwm env)
              [Call.setLeverage false, Call.volumeCheck] ext _ 0 heq
              (by decide) (by simp) (by simp) hp
          | false =>
            have htr : open_trade_for_user env (some ud) symbol price_now
                = (Outcome.volumeBlocked,
                  [Call.setLeverage false, Call.volumeCheck]) := by
              simp [open_trade_for_user, hbl, he1, hc0, hvf, hvo]
            rw [htr]; simp only [hq0]
            exact c2_main (entryOwm env)
              [Call.setLeverage false, Call.volumeCheck] [] _ 0 (by simp)
              (by decide) (by simp) (by simp) (by simp)
      | false =>
        have htr : (open_trade_for_user env (some ud) symbol price_now).2
            = (run_entry env ud (toDashSymbol symbol) (qtyOf ud price_now)
                (pyRound (count_decimal_places price_now)
                  (price_now * (1 - ud.stop_loss_pct / 100)))
                [Call.setLeverage false]).2 := by
          simp [open_trade_for_user, hbl, he1, hc0, hvf]
        rw [htr]; simp only [hq0]
        obtain ⟨ext, heq, hp⟩ := run_entry_ext env ud (toDashSymbol symbol)
          (qtyOf ud price_now)
          (pyRound (count_decimal_places price_now)
            (price_now * (1 - ud.stop_loss_pct / 100)))
          [Call.setLeverage false]
        exact c2_main (entryOwm env) [Call.setLeverage false] ext _ 0 heq
          (by decide) (by simp) (by simp) hp

/-- Witness for the amended C2 in the environment of the counterexample. -/
theorem c2_amended_witness :
    (sym0 ∉ udB.blacklist)
      ∧ (((open_trade_for_user envC2 (some udB) sym0 1).2).count
            (Call.setLeverage true)
            = (match envC2.leverage1 with
              | .ok c => if c == 0 then 0 else 1
              | .error _ => 0)
        ∧ (∀ q b ro stp, Call.marketOrder sShort q b ro stp
            ∈ (open_trade_for_user envC2 (some udB) sym0 1).2
            → b = entryOwm envC2)
        ∧ (∀ q b, Call.setTp q b
            ∈ (open_trade_for_user envC2 (some udB) sym0 1).2
            → b = entryOwm envC2)) :=
  ⟨by decide, c2_amended envC2 udB sym0 1 (by decide)⟩

/-- C1, divergence exhibit: in `envC1` the very first exchange call
(set_leverage) raises, before the entry-order response local `resp` is ever
bound.  The handler at main.py line 315 then evaluates an alert text that
interpolates the unbound `resp`, raises NameError itself, and the attempt
dies: the outcome is the escaped handler error and the trace contains no
market order at all — in particular no reduce-only close — contradicting
the claim that a best-effort close is attempted for an exception at any
step and that handler failures never escape. -/
theorem c1_no_close_on_early_failure :
    open_trade_for_user envC1 (some udB) sym0 1
        = (Outcome.nameError, [Call.setLeverage false])
      ∧ ∀ side q b ro stp, Call.marketOrder side q b ro stp
          ∉ (open_trade_for_user envC1 (some udB) sym0 1).2 := by
  have h : open_trade_for_user envC1 (some udB) sym0 1
      = (Outcome.nameError, [Call.setLeverage false]) := by decide
  refine ⟨h, ?_⟩
  intro side q b ro stp
  rw [h]
  simp

/-! ### C5: position verification failure closes and stops the attempt -/

theorem run_verify_bad (env : Env) (ud : UserData) (s : String) (qty : ℚ)
    (owm : Bool) (resp : Int) (tr : List Call)
    (hpos : ∃ ps, env.positions = Except.ok ps
        ∧ (match ps.find? (fun p => p.1 == s) with
          | none => True
          | some p => |p.2| < qty * (9 / 10)))
    (hvc : ∃ r, env.verify_close = Except.ok r) :
    run_verify env ud s qty owm resp tr
      = (Outcome.handled Exc.positionNotOpened,
        (tr ++ [Call.getPositions, Call.marketOrder sShort qty owm true none])
          ++ [Call.marketOrder sShort qty owm true none]) := by
  obtain ⟨ps, hp, hbad⟩ := hpos
  obtain ⟨r, hr⟩ := hvc
  unfold run_verify
  simp only [hp]
  rcases hfind : ps.find? (fun p => p.1 == s) with _ | p
  · simp only [hfind, hr, run_handler]
    simp
  · rw [hfind] at hbad
    have hdec : decide (|p.2| < qty * (9 / 10)) = true := decide_eq_true hbad
    simp only [hfind, hdec, hr, run_handler]
    simp

theorem run_verify_bad_concl (env : Env) (ud : UserData) (s : String)
    (qty : ℚ) (owm : Bool) (resp : Int) (tr : List Call)
    (hpos : ∃ ps, env.positions = Except.ok ps
        ∧ (match ps.find? (fun p => p.1 == s) with
          | none => True
          | some p => |p.2| < qty * (9 / 10)))
    (hvc : ∃ r, env.verify_close = Except.ok r)
    (htp : ∀ q b, Call.setTp q b ∉ tr)
    (htrail : Call.setTrailing ∉ tr) :
    (run_verify env ud s qty owm resp tr).1
        = Outcome.handled Exc.positionNotOpened
      ∧ Call.marketOrder sShort qty owm true none
          ∈ (run_verify env ud s qty owm resp tr).2
      ∧ (∀ q b, Call.setTp q b ∉ (run_verify env ud s qty owm resp tr).2)
      ∧ Call.setTrailing ∉ (run_verify env ud s qty owm resp tr).2 := by
  rw [run_verify_bad env ud s qty owm resp tr hpos hvc]
  refine ⟨rfl, by simp, ?_, by simp [htrail]⟩
  intro q b
  simp [htp q b]

theorem open_trade_reaches_entry (env : Env) (ud : UserData) (symbol : String)
    (price_now : ℚ) (hbl : symbol ∉ ud.blacklist)
    (hlev : ∃ c, env.leverage1 = Except.ok c
        ∧ (c = 0 ∨ ∃ c2, env.leverage2 = Except.ok c2))
    (hvol : ud.volume_filter_enabled = false ∨ env.volume_ok = Except.ok true) :
    ∃ pre, open_trade_for_user env (some ud) symbol price_now
        = run_entry env ud (toDashSymbol symbol) (qtyOf ud price_now)
            (pyRound (count_decimal_places price_now)
              (price_now * (1 - ud.stop_loss_pct / 100))) pre
      ∧ (∀ q b, Call.setTp q b ∉ pre)
      ∧ Call.setTrailing ∉ pre := by
  obtain ⟨c, he1, hrest⟩ := hlev
  cases hc0 : c != 0 with
  | true =>
    obtain ⟨c2, he2⟩ : ∃ c2, env.leverage2 = Except.ok c2 := by
      rcases hrest with h | h
      · subst h; simp at hc0
      · exact h
    cases hvf : ud.volume_filter_enabled with
    | false =>
      exact ⟨[Call.setLeverage false, Call.setLeverage true],
        by simp [open_trade_for_user, hbl, he1, hc0, he2, hvf],
        by simp, by simp⟩
    | true =>
      have hvo : env.volume_ok = Except.ok true := by
        rcases hvol with h | h
        · rw [hvf] at h; cases h
        · exact h
      exact ⟨[Call.setLeverage false, Call.setLeverage true, Call.volumeCheck],
        by simp [open_trade_for_user, hbl, he1, hc0, he2, hvf, hvo],
        by simp, by simp⟩
  | false =>
    cases hvf : ud.volume_filter_enabled with
    | false =>
      exact ⟨[Call.setLeverage false],
        by simp [open_trade_for_user, hbl, he1, hc0, hvf],
        by simp, by simp⟩
    | true =>
      have hvo : env.volume_ok = Except.ok true := by
        rcases hvol with h | h
        · rw [hvf] at h; cases h
        · exact h
      exact ⟨[Call.setLeverage false, Call.volumeCheck],
        by simp [open_trade_for_user, hbl, he1, hc0, hvf, hvo],
        by simp, by simp⟩

/-- C5: after a successful entry order (directly, or through the one-way
retry), when the queried positions have no record for the symbol or a record
whose absolute size is below 90 percent of the requested quantity, a
reduce-only close for the requested quantity is submitted under the
attempt's convention, the attempt terminates with the position-not-opened
failure, and no take-profit or trailing order is ever placed. -/
theorem c5_position_not_opened (env : Env) (ud : UserData) (symbol : String)
    (price_now : ℚ)
    (hbl : symbol ∉ ud.blacklist)
    (hlev : ∃ c, env.leverage1 = Except.ok c
        ∧ (c = 0 ∨ ∃ c2, env.leverage2 = Except.ok c2))
    (hvol : ud.volume_filter_enabled = false ∨ env.volume_ok = Except.ok true)
    (hentry : env.entry1 = Except.ok 0
        ∨ (env.entry1 = Except.ok 109400 ∧ ∃ c2, env.entry2 = Except.ok c2))
    (hpos : ∃ ps, env.positions = Except.ok ps
        ∧ (match ps.find? (fun p => p.1 == toDashSymbol symbol) with
          | none => True
          | some p => |p.2| < qtyOf ud price_now * (9 / 10)))
    (hvc : ∃ r, env.verify_close = Except.ok r) :
    (open_trade_for_user env (some ud) symbol price_now).1
        = Outcome.handled Exc.positionNotOpened
      ∧ Call.marketOrder sShort (qtyOf ud price_now) (entryOwm env) true none
          ∈ (open_trade_for_user env (some ud) symbol price_now).2
      ∧ (∀ q b, Call.setTp q b
          ∉ (open_trade_for_user env (some ud) symbol price_now).2)
      ∧ Call.setTrailing
          ∉ (open_trade_for_user env (some ud) symbol price_now).2 := by
  obtain ⟨pre, htr, htp, htrail⟩ :=
    open_trade_reaches_entry env ud symbol price_now hbl hlev hvol
  rw [htr]
  rcases hentry with he | ⟨he, c2, he2⟩
  · have hre : run_entry env ud (toDashSymbol symbol) (qtyOf ud price_now)
        (pyRound (count_decimal_places price_now)
          (price_now * (1 - ud.stop_loss_pct / 100))) pre
        = run_verify env ud (toDashSymbol symbol) (qtyOf ud price_now) false 0
            (pre ++ [Call.marketOrder sLong (qtyOf ud price_now) false false
              (some (pyRound (count_decimal_places price_now)
                (price_now * (1 - ud.stop_loss_pct / 100))))]) := by
      simp [run_entry, he]
    have howm : entryOwm env = false := by simp [entryOwm, he]
    rw [hre, howm]
    refine run_verify_bad_concl env ud (toDashSymbol symbol)
      (qtyOf ud price_now) false 0 _ hpos hvc ?_ ?_
    · intro q b
      simp [htp q b]
    · simp [htrail]
  · have hre : run_entry env ud (toDashSymbol symbol) (qtyOf ud price_now)
        (pyRound (count_decimal_places price_now)
          (price_now * (1 - ud.stop_loss_pct / 100))) pre
        = run_verify env ud (toDashSymbol symbol) (qtyOf ud price_now) true c2
            ((pre ++ [Call.marketOrder sLong (qtyOf ud price_now) false false
              (some (pyRound (count_decimal_places price_now)
                (price_now * (1 - ud.stop_loss_pct / 100))))])
              ++ [Call.marketOrder sLong (qtyOf ud price_now) true false
                (some (pyRound (count_decimal_places price_now)
                  (price_now * (1 - ud.stop_loss_pct / 100))))]) := by
      simp [run_entry, he, he2]
    have howm : entryOwm env = true := by simp [entryOwm, he]
    rw [hre, howm]
    refine run_verify_bad_concl env ud (toDashSymbol symbol)
      (qtyOf ud price_now) true c2 _ hpos hvc ?_ ?_
    · intro q b
      simp [htp q b]
    · simp [htrail]

/-- Witness for C5 in `envW5`: leverage accepted, entry accepted with code
0, the position query returns an empty list, the verification close is
accepted, and the attempt ends position-not-opened with no TP or trailing
order. -/
theorem c5_witness :
    (envW5.positions = Except.ok [] ∧ envW5.verify_close = Except.ok 0)
      ∧ ((open_trade_for_user envW5 (some udB) sym0 1).1
            = Outcome.handled Exc.positionNotOpened
        ∧ Call.marketOrder sShort (qtyOf udB 1) (entryOwm envW5) true none
            ∈ (open_trade_for_user envW5 (some udB) sym0 1).2
        ∧ (∀ q b, Call.setTp q b
            ∉ (open_trade_for_user envW5 (some udB) sym0 1).2)
        ∧ Call.setTrailing
            ∉ (open_trade_for_user envW5 (some udB) sym0 1).2) :=
  ⟨⟨rfl, rfl⟩,
    c5_position_not_opened envW5 udB sym0 1 (by decide)
      ⟨0, rfl, Or.inl rfl⟩ (Or.inl rfl) (Or.inl rfl)
      ⟨[], rfl, by simp⟩ ⟨0, rfl⟩⟩

end Screener
